import Mathlib

/-!
Verification of the pi-mono example extensions: a checkpoint save/restore
utility, the "Ralph Wiggum" iteration-loop controller, and the persistent
input-history buffer.  Each definition is a shallow embedding of the
corresponding TypeScript function; filesystem reads, JSON parsing and host
services are modelled by explicit parameters (an `Option` models a file or a
parse that may be absent/failed).  JavaScript number arithmetic is modelled
exactly over `Nat`.
-/

/-! ## String utilities

JavaScript's `String.prototype.trim()` removes leading and trailing
whitespace.  We model it directly on the character list so that it reduces in
the kernel. -/

/-- Remove leading and trailing whitespace characters from a character list
(model of JS `trim`). -/
def trimChars (l : List Char) : List Char :=
  ((l.dropWhile Char.isWhitespace).reverse.dropWhile Char.isWhitespace).reverse

/-- Model of JS `text.trim()` on `String`. -/
def jsTrim (s : String) : String :=
  String.mk (trimChars s.data)

/-- Index of the first occurrence of `needle` as a contiguous substring of
`hay`, if any (model of leftmost substring search, as performed by JS
`String.prototype.match` with a literal-headed pattern). -/
def findSub (needle : List Char) : List Char → Option Nat
  | [] => if needle.isEmpty then some 0 else none
  | c :: rest =>
    if needle.isPrefixOf (c :: rest) then some 0
    else (findSub needle rest).map (· + 1)

/-- Whether `needle` occurs as a contiguous substring of `hay`. -/
def containsSub (needle hay : String) : Bool :=
  (findSub needle.data hay.data).isSome

/-! ## Input history buffer

Embedding of `packages/coding-agent/src/core/input-history.ts`
(`InputHistoryManager`).  The in-memory buffer is a `List String`, most
recent first; persistence is a no-op for correctness (save errors are
swallowed), so it is not modelled. -/

namespace InputHistory

/-- `MAX_HISTORY_SIZE` from input-history.ts. -/
def MAX_HISTORY_SIZE : Nat := 150

/-- Embedding of `InputHistoryManager.add`: trim; skip if empty or equal to
the current most-recent entry; prepend; truncate to 150 entries. -/
def add (history : List String) (text : String) : List String :=
  let trimmed := jsTrim text
  if trimmed = "" then history
  else if history.head? = some trimmed then history
  else
    let h2 := trimmed :: history
    if MAX_HISTORY_SIZE < h2.length then h2.take MAX_HISTORY_SIZE else h2

/-- Model of a parsed JSON value (the result of `JSON.parse`). -/
inductive Json
  | str (s : String)
  | num (n : Int)
  | bool (b : Bool)
  | null
  | arr (elems : List Json)
  | obj

/-- The coercion used by the filter `typeof item === "string"`. -/
def Json.asString : Json → Option String
  | .str s => some s
  | _ => none

/-- Embedding of `InputHistoryManager.load`.  The argument is the parsed
content of the history file: `none` models a missing file or a `JSON.parse`
failure (both leave the history empty); a non-array value also leaves the
history empty; an array is filtered to its string-typed elements and
truncated to `MAX_HISTORY_SIZE`. -/
def load (data : Option Json) : List String :=
  match data with
  | some (.arr elems) => (elems.filterMap Json.asString).take MAX_HISTORY_SIZE
  | _ => []

end InputHistory

section InputHistorySanity

example : InputHistory.add [] "  hello world  " = ["hello world"] := by decide

example : InputHistory.add (InputHistory.add [] "hello") "hello" = ["hello"] := by decide

example :
    InputHistory.load
        (some (.arr [.str "valid", .num 123, .null, .str "also valid", .obj])) =
      ["valid", "also valid"] := by decide

end InputHistorySanity

/-! ## Conversation messages

Shared model of the host's message values as far as the extensions inspect
them: a role, and for user/assistant messages a list of content blocks, of
which only text blocks and tool-call blocks are distinguished. -/

/-- A content block of a message (`TextContent`, tool-call blocks, or
anything else). -/
inductive ContentBlock
  | text (s : String)
  | toolCall
  | otherBlock
  deriving DecidableEq

/-- A message as inspected by the extensions: only the role and the content
blocks matter. -/
inductive AgentMessage
  | user (content : List ContentBlock)
  | assistant (content : List ContentBlock)
  | otherRole
  deriving DecidableEq

/-- Embedding of `isAssistantMessage` (role is "assistant" and the content is
an array). -/
def isAssistantMessage : AgentMessage → Bool
  | .assistant _ => true
  | _ => false

/-! ## Checkpoint store

Embedding of the checkpoint extension (`src/unnamed/part_000`, first file).
The filesystem is modelled by explicit parameters: a file is an
`Option String` (its content, or `none` when missing) and `JSON.parse` is an
explicit partial parse function.  An ISO timestamp string is modelled by its
epoch value (`new Date(ts).getTime()`), which is all the code ever computes
from it. -/

namespace CheckpointStore

/-- The stats summary stored in a checkpoint. -/
structure Stats where
  messageCount : Nat
  userMessages : Nat
  assistantMessages : Nat
  toolCalls : Nat
  deriving DecidableEq

/-- The `Checkpoint` record persisted to
`~/.pi/agent/checkpoints/<id>.json`. -/
structure Checkpoint where
  id : String
  description : Option String
  cwd : String
  /-- creation time, as the epoch value of the stored ISO string -/
  timestamp : Nat
  serializedContext : String
  stats : Stats
  deriving DecidableEq

/-- Embedding of `loadCheckpoint`: `file` is the content of the checkpoint
file (`none` when `existsSync` is false), `parseJson` is the host's
`JSON.parse` (`none` on malformed JSON, caught by the `try`/`catch`).  Both
failures yield `none`; no exception escapes. -/
def loadCheckpoint (file : Option String) (parseJson : String → Option Checkpoint) :
    Option Checkpoint :=
  match file with
  | none => none
  | some content => parseJson content

/-- An entry of the session log, as filtered by the save handler
(`e.type === "message"`). -/
inductive SessionEntry
  | message (m : AgentMessage)
  | otherEntry
  deriving DecidableEq

/-- The message carried by a `message` entry, if any. -/
def SessionEntry.messageOf : SessionEntry → Option AgentMessage
  | .message m => some m
  | .otherEntry => none

/-- Number of `toolCall` blocks in an assistant message's content (the inner
loop of the stats computation). -/
def toolCallsIn (content : List ContentBlock) : Nat :=
  content.countP fun b => match b with | .toolCall => true | _ => false

/-- The stats loop of the save handler: counts user messages, assistant
messages, and tool-call blocks inside assistant messages. -/
def computeStats (messages : List AgentMessage) : Nat × Nat × Nat :=
  messages.foldl
    (fun acc msg =>
      match msg with
      | .user _ => (acc.1 + 1, acc.2.1, acc.2.2)
      | .assistant content => (acc.1, acc.2.1 + 1, acc.2.2 + toolCallsIn content)
      | .otherRole => acc)
    (0, 0, 0)

/-- Result of the `/checkpoint save` handler: the checkpoint written to the
store (`none` when nothing was written) and whether the "No messages to
checkpoint" warning was shown. -/
structure SaveResult where
  written : Option Checkpoint
  warned : Bool
  deriving DecidableEq

/-- Embedding of the `save` case of the checkpoint command handler: filter
the branch to its message entries; if there are none, write nothing and warn;
otherwise serialize the conversation (`serialize` models the host's
`convertToLlm`/`serializeConversation`), compute stats, and write a
checkpoint under the freshly generated id. -/
def saveCmd (branch : List SessionEntry) (newId : String) (description : Option String)
    (cwd : String) (now : Nat) (serialize : List AgentMessage → String) : SaveResult :=
  let messageEntries := branch.filterMap SessionEntry.messageOf
  if messageEntries.length = 0 then
    { written := none, warned := true }
  else
    let stats := computeStats messageEntries
    { written := some
        { id := newId
          description := description
          cwd := cwd
          timestamp := now
          serializedContext := serialize messageEntries
          stats :=
            { messageCount := messageEntries.length
              userMessages := stats.1
              assistantMessages := stats.2.1
              toolCalls := stats.2.2 } }
      warned := false }

/-- The summary record produced by `listCheckpoints` for each parseable
file. -/
structure Summary where
  id : String
  timestamp : Nat
  description : Option String
  messageCount : Nat
  deriving DecidableEq

/-- The projection pushed for each parsed checkpoint. -/
def toSummary (c : Checkpoint) : Summary :=
  { id := c.id, timestamp := c.timestamp, description := c.description,
    messageCount := c.stats.messageCount }

/-- Insertion into a list sorted by timestamp descending (model of the JS
stable sort with comparator `(a, b) => getTime(b) - getTime(a)`). -/
def insertByTs (s : Summary) : List Summary → List Summary
  | [] => [s]
  | x :: xs =>
    if s.timestamp ≤ x.timestamp then x :: insertByTs s xs
    else s :: x :: xs

/-- Sort by timestamp descending. -/
def sortByTsDesc (l : List Summary) : List Summary :=
  l.foldr insertByTs []

/-- Embedding of `listCheckpoints`: `files` is the directory enumeration,
each element being the parse result of one checkpoint file (`none` for an
unparseable file, which is skipped).  Parseable files are summarized and
sorted by timestamp, newest first. -/
def listCheckpoints (files : List (Option Checkpoint)) : List Summary :=
  sortByTsDesc ((files.filterMap id).map toSummary)

end CheckpointStore

/-! ## Ralph Wiggum iteration-loop controller

Embedding of the ralph extension (`src/unnamed/part_000`, second file).  Host
services are modelled by parameters: the model's context window and the last
assistant turn's token usage (`calculateContextTokens` applied to
`getLastAssistantUsage`) enter `agentEnd` as `Option Nat`s; UI notifications
and `sendMessage`/`sendUserMessage` calls are recorded in the result. -/

namespace Ralph

/-- The `RalphState` record. -/
structure RalphState where
  active : Bool
  prompt : String
  iteration : Nat
  totalIterations : Nat
  maxIterations : Nat
  completionPromise : Option String
  planFile : Option String
  contextThreshold : Nat
  startedAt : Nat
  sessionCount : Nat
  pendingHandoff : Bool
  deriving DecidableEq

/-- The state built by the `/ralph` command handler on a successful start
(counters initialized to 1, session count 1, no pending handoff). -/
def startState (prompt : String) (maxIterations : Nat) (completionPromise : Option String)
    (planFile : Option String) (contextThreshold : Nat) (now : Nat) : RalphState :=
  { active := true
    prompt := prompt
    iteration := 1
    totalIterations := 1
    maxIterations := maxIterations
    completionPromise := completionPromise
    planFile := planFile
    contextThreshold := contextThreshold
    startedAt := now
    sessionCount := 1
    pendingHandoff := false }

/-- Embedding of `extractTextContent`: the text blocks of the message's
content joined with newlines (non-assistant messages never reach it; they
yield the empty string). -/
def extractTextContent (m : AgentMessage) : String :=
  match m with
  | .assistant content =>
    String.intercalate "\n"
      (content.filterMap fun b => match b with | .text s => some s | _ => none)
  | _ => ""

/-- Embedding of `extractPromiseText`, i.e. of
`text.match(/<promise>\s*(.*?)\s*<\/promise>/s)` followed by
`match[1].trim()`.  The leftmost lazy match pairs the first occurrence of
`<promise>` with the first occurrence of `</promise>` after it; the group,
after the surrounding `\s*`/`trim`, is the enclosed text with leading and
trailing whitespace removed.  `none` models the `null` match. -/
def extractPromiseText (text : String) : Option String :=
  match findSub "<promise>".data text.data with
  | none => none
  | some i =>
    let tail := text.data.drop (i + 9)
    match findSub "</promise>".data tail with
    | none => none
    | some j => some (String.mk (trimChars (tail.take j)))

/-- Embedding of `getContextUsagePercent`: `null` when the context has no
model or when there is no last-assistant usage entry; otherwise
`Math.round(contextTokens / contextWindow * 100)`, i.e. (in exact
arithmetic, for non-negative operands) `⌊(tokens * 100) / window + 1/2⌋`. -/
def getContextUsagePercent (contextWindow : Option Nat) (usageTokens : Option Nat) :
    Option Nat :=
  match contextWindow with
  | none => none
  | some w =>
    match usageTokens with
    | none => none
    | some t => some ((2 * (t * 100) + w) / (2 * w))

/-- The most recent assistant message of the turn:
`[...event.messages].reverse().find(isAssistantMessage)`. -/
def lastAssistant (msgs : List AgentMessage) : Option AgentMessage :=
  msgs.reverse.find? isAssistantMessage

/-- The completion-promise check of the `agent_end` handler: a completion
promise is configured, the turn has an assistant message, and the extracted
promise text equals the configured tag. -/
def completionDetected (s : RalphState) (msgs : List AgentMessage) : Bool :=
  match s.completionPromise with
  | none => false
  | some tag =>
    match lastAssistant msgs with
    | none => false
    | some m => extractPromiseText (extractTextContent m) == some tag

/-- The user message sent when the context threshold is reached with a plan
file configured. -/
def updateRequest (planFile : String) : String :=
  "Update " ++ planFile ++ " with current progress before session handoff."

/-- UI notifications emitted by the `agent_end` handler, by kind.
`contextWarning` is the only `"warning"`-level one; it records the usage
percentage it reports. -/
inductive Notice
  | handoffReady
  | maxIterationsReached
  | loopComplete
  | contextWarning (percent : Nat)
  deriving DecidableEq

/-- Observable outcome of one `agent_end` callback: the controller state
afterwards, the `sendUserMessage` calls (in order), the `customType`s of the
`sendMessage` calls, and the UI notifications. -/
structure AgentEndResult where
  finalState : Option RalphState
  sentUserMessages : List String
  sentCustomTypes : List String
  notices : List Notice
  deriving DecidableEq

/-- The fall-through tail of the handler ("Continue the loop"): increment
both counters, send the `ralph-iteration` marker message, and resubmit the
identical original prompt. -/
def continueLoop (s : RalphState) (notices : List Notice) : AgentEndResult :=
  { finalState := some
      { s with iteration := s.iteration + 1, totalIterations := s.totalIterations + 1 }
    sentUserMessages := [s.prompt]
    sentCustomTypes := ["ralph-iteration"]
    notices := notices }

/-- Embedding of the `agent_end` handler.  `contextWindow`/`usageTokens`
feed `getContextUsagePercent`.  The ordered checks are: an inactive state
does nothing; pending handoff only notifies; max iterations reached clears the
state; a matching completion promise clears the state; context usage at or
above the threshold either marks the pending handoff (plan file configured)
or warns and falls through; otherwise the loop continues. -/
def agentEnd (state : Option RalphState) (msgs : List AgentMessage)
    (contextWindow : Option Nat) (usageTokens : Option Nat) : AgentEndResult :=
  match state with
  | none =>
    { finalState := none, sentUserMessages := [], sentCustomTypes := [], notices := [] }
  | some s =>
    if s.active = false then
      { finalState := some s, sentUserMessages := [], sentCustomTypes := [], notices := [] }
    else if s.pendingHandoff = true then
      { finalState := some s, sentUserMessages := [], sentCustomTypes := []
        notices := [.handoffReady] }
    else if 0 < s.maxIterations ∧ s.maxIterations ≤ s.totalIterations then
      { finalState := none, sentUserMessages := [], sentCustomTypes := []
        notices := [.maxIterationsReached] }
    else if completionDetected s msgs = true then
      { finalState := none, sentUserMessages := [], sentCustomTypes := []
        notices := [.loopComplete] }
    else
      match getContextUsagePercent contextWindow usageTokens with
      | some p =>
        if s.contextThreshold ≤ p then
          match s.planFile with
          | some pf =>
            { finalState := some { s with pendingHandoff := true }
              sentUserMessages := [updateRequest pf]
              sentCustomTypes := ["ralph-context-warning"]
              notices := [] }
          | none => continueLoop s [.contextWarning p]
        else continueLoop s []
      | none => continueLoop s []

end Ralph

section RalphSanity

example : Ralph.extractPromiseText "done: <promise>  DONE  </promise>" = some "DONE" := by
  decide

example : Ralph.extractPromiseText "no tags here" = none := by decide

example : Ralph.extractPromiseText "<promise>a</promise><promise>b</promise>" = some "a" := by
  decide

example : Ralph.getContextUsagePercent (some 200) (some 201) = some 101 := by decide

end RalphSanity

/-! ## Lemmas about substring search -/

theorem isPrefixOf_cons_ne {d c : Char} {tl rest : List Char} (hne : c ≠ d) :
    (d :: tl).isPrefixOf (c :: rest) = false := by
  rw [Bool.eq_false_iff]
  intro hpf
  rw [List.isPrefixOf_iff_prefix, List.cons_prefix_cons] at hpf
  exact hne hpf.1.symm

theorem findSub_cons_ne {needle : List Char} {d : Char} {tl : List Char}
    (hn : needle = d :: tl) {c : Char} (rest : List Char) (hne : c ≠ d) :
    findSub needle (c :: rest) = (findSub needle rest).map (· + 1) := by
  rw [findSub, hn, isPrefixOf_cons_ne hne]
  simp

theorem findSub_append_clean {needle : List Char} {d : Char} {tl : List Char}
    (hn : needle = d :: tl) (pre l : List Char) (hpre : ∀ c ∈ pre, c ≠ d) :
    findSub needle (pre ++ l) = (findSub needle l).map (· + pre.length) := by
  induction pre with
  | nil =>
    simp only [List.nil_append, List.length_nil]
    cases findSub needle l <;> simp
  | cons c cs ih =>
    rw [List.cons_append, findSub_cons_ne hn _ (hpre c (List.mem_cons_self c cs)),
      ih fun x hx => hpre x (List.mem_cons_of_mem c hx)]
    cases findSub needle l <;> simp [Nat.add_assoc]

theorem findSub_append_self {needle : List Char} (hne : needle ≠ []) (l : List Char) :
    findSub needle (needle ++ l) = some 0 := by
  have hpf : needle.isPrefixOf (needle ++ l) = true :=
    List.isPrefixOf_iff_prefix.mpr (List.prefix_append needle l)
  cases hn : needle with
  | nil => exact absurd hn hne
  | cons d tl =>
    subst hn
    rw [List.cons_append, findSub, ← List.cons_append, hpf]
    simp

/-! ## Lemmas about the checkpoint summary sort -/

namespace CheckpointStore

theorem insertByTs_perm (s : Summary) (l : List Summary) :
    (insertByTs s l).Perm (s :: l) := by
  induction l with
  | nil => exact List.Perm.refl _
  | cons x xs ih =>
    rw [insertByTs]
    split
    · exact (ih.cons x).trans (List.Perm.swap s x xs)
    · exact List.Perm.refl _

theorem insertByTs_sorted (s : Summary) (l : List Summary)
    (h : l.Pairwise fun a b => b.timestamp ≤ a.timestamp) :
    (insertByTs s l).Pairwise fun a b => b.timestamp ≤ a.timestamp := by
  induction l with
  | nil => simp [insertByTs]
  | cons x xs ih =>
    rw [List.pairwise_cons] at h
    obtain ⟨hx, hxs⟩ := h
    rw [insertByTs]
    split
    case isTrue hle =>
      refine List.pairwise_cons.mpr ⟨?_, ih hxs⟩
      intro b hb
      rcases List.mem_cons.mp ((insertByTs_perm s xs).mem_iff.mp hb) with rfl | hb
      · exact hle
      · exact hx b hb
    case isFalse hgt =>
      refine List.pairwise_cons.mpr ⟨?_, List.pairwise_cons.mpr ⟨hx, hxs⟩⟩
      intro b hb
      rcases List.mem_cons.mp hb with rfl | hb
      · exact Nat.le_of_not_le hgt
      · exact Nat.le_trans (hx b hb) (Nat.le_of_not_le hgt)

theorem sortByTsDesc_perm (l : List Summary) : (sortByTsDesc l).Perm l := by
  induction l with
  | nil => exact List.Perm.refl _
  | cons x xs ih =>
    rw [sortByTsDesc, List.foldr_cons]
    exact (insertByTs_perm x _).trans (ih.cons x)

theorem sortByTsDesc_sorted (l : List Summary) :
    (sortByTsDesc l).Pairwise fun a b => b.timestamp ≤ a.timestamp := by
  induction l with
  | nil => simp [sortByTsDesc]
  | cons x xs ih => exact insertByTs_sorted x _ ih

end CheckpointStore

/-! ## Lemmas about the input-history buffer -/

namespace InputHistory

theorem add_eq_take (h : List String) (t : String) (hne : jsTrim t ≠ "")
    (hhd : h.head? ≠ some (jsTrim t)) :
    add h t = (jsTrim t :: h).take MAX_HISTORY_SIZE := by
  rw [add]
  simp only [hne, if_false, hhd, if_false]
  split
  case isTrue hlt => rfl
  case isFalse hle => rw [List.take_of_length_le (Nat.le_of_not_lt hle)]

theorem take_append_take (a b : List String) (n : Nat) :
    (a ++ b.take n).take n = (a ++ b).take n := by
  rw [List.take_append_eq_append_take, List.take_append_eq_append_take, List.take_take,
    inf_of_le_left (Nat.sub_le n a.length)]

theorem foldl_add_fresh :
    ∀ (l : List String) (h : List String),
      (∀ t ∈ l, jsTrim t = t ∧ t ≠ "") →
      l.Chain' (· ≠ ·) →
      (∀ t, l.head? = some t → h.head? ≠ some t) →
      h.length ≤ MAX_HISTORY_SIZE →
      l.foldl add h = (l.reverse ++ h).take MAX_HISTORY_SIZE := by
  intro l
  induction l with
  | nil =>
    intro h _ _ _ hlen
    simp [List.take_of_length_le hlen]
  | cons x xs ih =>
    intro h hmem hchain hhd hlen
    obtain ⟨hxt, hxe⟩ := hmem x (List.mem_cons_self x xs)
    have hxne : jsTrim x ≠ "" := by rw [hxt]; exact hxe
    have hstep : add h x = (x :: h).take MAX_HISTORY_SIZE := by
      rw [add_eq_take h x hxne (by rw [hxt]; exact hhd x rfl), hxt]
    have hchain' := List.chain'_cons'.mp hchain
    rw [List.foldl_cons, hstep,
      ih _ (fun t ht => hmem t (List.mem_cons_of_mem x ht)) hchain'.2 ?_
        (List.length_take_le _ _)]
    · rw [take_append_take, List.reverse_cons, List.append_assoc, List.singleton_append]
    · intro t ht
      have : ((x :: h).take MAX_HISTORY_SIZE).head? = some x := rfl
      rw [this]
      intro hcontra
      exact hchain'.1 t ht (Option.some.injEq _ _ ▸ hcontra)

/-- The `i`-th entry added in the 200-entry scenario (`i` from 0): a string
of `i + 1` letters `a`; all 200 are pairwise distinct, non-empty and contain
no whitespace. -/
def entN (i : Nat) : String := String.mk (List.replicate (i + 1) 'a')

theorem dropWhile_ws_replicate_a (m : Nat) :
    (List.replicate m 'a').dropWhile Char.isWhitespace = List.replicate m 'a' := by
  cases m with
  | zero => rfl
  | succ k =>
    rw [List.replicate_succ, List.dropWhile_cons]
    have : Char.isWhitespace 'a' = false := rfl
    rw [this]
    simp

theorem trimChars_replicate_a (n : Nat) :
    trimChars (List.replicate n 'a') = List.replicate n 'a' := by
  rw [trimChars, dropWhile_ws_replicate_a, List.reverse_replicate,
    dropWhile_ws_replicate_a, List.reverse_replicate]

theorem jsTrim_entN (i : Nat) : jsTrim (entN i) = entN i := by
  rw [entN, jsTrim]
  show String.mk (trimChars (List.replicate (i + 1) 'a')) = _
  rw [trimChars_replicate_a]

theorem entN_ne_empty (i : Nat) : entN i ≠ "" := by
  rw [entN]
  intro hcontra
  have := congrArg (fun s => s.data.length) hcontra
  simp at this

theorem entN_ne_of_ne {i j : Nat} (h : i ≠ j) : entN i ≠ entN j := by
  intro hcontra
  have := congrArg (fun s => s.data.length) hcontra
  simp [entN] at this
  exact h this

/-- The final buffer of the 200-entry scenario is the newest 150 entries. -/
theorem fold200 :
    (List.range 200).foldl (fun h i => add h (entN i)) [] =
      ((List.range 200).map entN).reverse.take MAX_HISTORY_SIZE := by
  rw [← List.foldl_map entN add]
  rw [foldl_add_fresh]
  · rw [List.append_nil]
  · intro t ht
    obtain ⟨i, _, rfl⟩ := List.mem_map.mp ht
    exact ⟨jsTrim_entN i, entN_ne_empty i⟩
  · exact (List.Pairwise.map entN
      (fun a b hab => entN_ne_of_ne (Nat.ne_of_lt hab))
      (List.pairwise_lt_range 200)).chain'
  · intro t _
    simp
  · simp [MAX_HISTORY_SIZE]

theorem fold200_getElem (k : Nat) (hk : k < 150) :
    ((List.range 200).foldl (fun h i => add h (entN i)) [])[k]? = some (entN (199 - k)) := by
  rw [fold200]
  rw [List.getElem?_take, if_pos (by simpa [MAX_HISTORY_SIZE] using hk)]
  rw [List.getElem?_reverse (by simpa using Nat.lt_of_lt_of_le hk (by norm_num))]
  rw [List.length_map, List.length_range, List.getElem?_map,
    List.getElem?_range (by omega)]
  rfl

end InputHistory

/-! ## Claims about the input-history buffer (C5, C6) -/

/-- Claim C5 (amended): `add(text)` trims the text; if the trimmed text is
empty or equal to the current most-recent entry it leaves the buffer
unchanged; otherwise it prepends the trimmed text and truncates to 150
entries by dropping the oldest.  Adding "hello" twice consecutively yields
length 1; adding "hello","world","hello" yields `[hello, world, hello]`;
adding 200 sequential unique entries (`entN 0`, …, `entN 199`) to an empty
buffer yields length exactly 150 with entry 0 the 200th added (`entN 199`)
and entry 149 the *51st* added (`entN 50`) — not the 50th, since the oldest
50 entries are dropped. -/
theorem C5_add_behavior :
    (∀ (h : List String) (t : String), jsTrim t = "" → InputHistory.add h t = h) ∧
    (∀ (h : List String) (t : String), h.head? = some (jsTrim t) →
      InputHistory.add h t = h) ∧
    (∀ (h : List String) (t : String), jsTrim t ≠ "" → h.head? ≠ some (jsTrim t) →
      InputHistory.add h t = (jsTrim t :: h).take InputHistory.MAX_HISTORY_SIZE) ∧
    (InputHistory.add (InputHistory.add [] "hello") "hello").length = 1 ∧
    InputHistory.add (InputHistory.add (InputHistory.add [] "hello") "world") "hello" =
      ["hello", "world", "hello"] ∧
    ((List.range 200).foldl (fun h i => InputHistory.add h (InputHistory.entN i)) []).length
      = 150 ∧
    ((List.range 200).foldl (fun h i => InputHistory.add h (InputHistory.entN i)) [])[0]? =
      some (InputHistory.entN 199) ∧
    ((List.range 200).foldl (fun h i => InputHistory.add h (InputHistory.entN i)) [])[149]? =
      some (InputHistory.entN 50) := by
  refine ⟨?_, ?_, ?_, by decide, by decide, ?_, ?_, ?_⟩
  · intro h t ht
    simp [InputHistory.add, ht]
  · intro h t hhd
    simp [InputHistory.add, hhd]
  · intro h t hne hhd
    exact InputHistory.add_eq_take h t hne hhd
  · rw [InputHistory.fold200]
    simp [InputHistory.MAX_HISTORY_SIZE]
  · exact InputHistory.fold200_getElem 0 (by norm_num)
  · exact InputHistory.fold200_getElem 149 (by norm_num)

/-- Witness for C5: the add equations applied at concrete inputs. -/
theorem C5_witness :
    InputHistory.add ["hello"] "   " = ["hello"] ∧
    InputHistory.add ["hello"] "hello  " = ["hello"] ∧
    InputHistory.add ["world"] " hi " = ["hi", "world"] := by
  refine ⟨C5_add_behavior.1 ["hello"] "   " (by decide),
    C5_add_behavior.2.1 ["hello"] "hello  " (by decide), ?_⟩
  rw [C5_add_behavior.2.2.1 ["world"] " hi " (by decide) (by decide)]
  decide

/-- Counterexample for C5 as stated: in the 200-entry scenario the entries
added are `entN 0`, …, `entN 199` in this order, so the `i`-th added entry
(counting from 1) is `entN (i - 1)`.  Entry 149 of the final buffer is
`entN 50`, the 51st entry added, and differs from the 50th added entry
`entN 49`. -/
theorem C5_counterexample :
    ((List.range 200).foldl (fun h i => InputHistory.add h (InputHistory.entN i)) [])[149]? =
      some (InputHistory.entN 50) ∧
    InputHistory.entN 50 ≠ InputHistory.entN 49 :=
  ⟨InputHistory.fold200_getElem 149 (by norm_num),
   InputHistory.entN_ne_of_ne (by norm_num)⟩

/-- Claim C6 (amended): file-backed construction loads the JSON array
keeping only string-typed elements in their original order, truncated to the
first 150 of them; a missing file, corrupted JSON, or non-array JSON yields
an empty buffer; loading `["valid", 123, null, "also valid", {}]` yields
exactly `["valid", "also valid"]`. -/
theorem C6_load_strings :
    (∀ elems, InputHistory.load (some (.arr elems)) =
      (elems.filterMap InputHistory.Json.asString).take InputHistory.MAX_HISTORY_SIZE) ∧
    InputHistory.load none = [] ∧
    InputHistory.load (some .obj) = [] ∧
    InputHistory.load (some .null) = [] ∧
    (∀ s, InputHistory.load (some (.str s)) = []) ∧
    (∀ n, InputHistory.load (some (.num n)) = []) ∧
    (∀ b, InputHistory.load (some (.bool b)) = []) ∧
    InputHistory.load
        (some (.arr [.str "valid", .num 123, .null, .str "also valid", .obj])) =
      ["valid", "also valid"] :=
  ⟨fun _ => rfl, rfl, rfl, rfl, fun _ => rfl, fun _ => rfl, fun _ => rfl, by decide⟩

/-- Counterexample for C6 as stated: a file holding an array of 151 strings
has 151 string-typed elements, but the loaded buffer keeps only the first
150 of them, so the buffer is not the full list of string-typed elements. -/
theorem C6_counterexample :
    (List.replicate 151 (InputHistory.Json.str "x")).filterMap InputHistory.Json.asString =
      List.replicate 151 "x" ∧
    InputHistory.load (some (.arr (List.replicate 151 (.str "x")))) =
      List.replicate 150 "x" ∧
    (List.replicate 150 "x" : List String) ≠ List.replicate 151 "x" := by
  refine ⟨?_, ?_, ?_⟩
  · simp [List.filterMap_replicate, InputHistory.Json.asString]
  · rw [InputHistory.load]
    simp [List.filterMap_replicate, InputHistory.Json.asString, List.take_replicate,
      InputHistory.MAX_HISTORY_SIZE]
  · intro hcontra
    have := congrArg List.length hcontra
    simp at this

/-! ## Claims about the checkpoint store (C7, C8, C9) -/

/-- Claim C7: `loadCheckpoint` returns not-found (`none`) when the file does
not exist, and also when the file exists but its JSON is malformed (the
parse fails); being a total function, it raises no exception in either
case. -/
theorem C7_loadCheckpoint_not_found :
    (∀ parseJson, CheckpointStore.loadCheckpoint none parseJson = none) ∧
    (∀ content parseJson, parseJson content = none →
      CheckpointStore.loadCheckpoint (some content) parseJson = none) :=
  ⟨fun _ => rfl, fun _ _ h => h⟩

/-- Witness for C7: a missing file and a file whose parse fails both load as
not-found. -/
theorem C7_witness :
    CheckpointStore.loadCheckpoint none (fun _ => none) = none ∧
    CheckpointStore.loadCheckpoint (some "not json") (fun _ => none) = none :=
  ⟨C7_loadCheckpoint_not_found.1 _, C7_loadCheckpoint_not_found.2 "not json" _ rfl⟩

/-- Claim C8: when the current branch contains zero message entries, the
save handler writes no checkpoint and shows the warning instead. -/
theorem C8_save_no_messages (branch : List CheckpointStore.SessionEntry) (newId : String)
    (description : Option String) (cwd : String) (now : Nat)
    (serialize : List AgentMessage → String)
    (h : branch.filterMap CheckpointStore.SessionEntry.messageOf = []) :
    CheckpointStore.saveCmd branch newId description cwd now serialize =
      { written := none, warned := true } := by
  simp [CheckpointStore.saveCmd, h]

/-- Witness for C8: a branch with only a non-message entry triggers the
warning and writes nothing. -/
theorem C8_witness :
    CheckpointStore.saveCmd [CheckpointStore.SessionEntry.otherEntry] "abc123" none "/tmp" 0
        (fun _ => "") = { written := none, warned := true } :=
  C8_save_no_messages _ _ _ _ _ _ rfl

/-- Claim C9: `listCheckpoints` returns one summary per parseable checkpoint
file (unparseable files are skipped by the `filterMap`) and the result is
sorted by timestamp descending, for every enumeration order of the
filesystem. -/
theorem C9_list_sorted (files : List (Option CheckpointStore.Checkpoint)) :
    (CheckpointStore.listCheckpoints files).Perm
        ((files.filterMap id).map CheckpointStore.toSummary) ∧
    (CheckpointStore.listCheckpoints files).Pairwise
      (fun a b => b.timestamp ≤ a.timestamp) :=
  ⟨CheckpointStore.sortByTsDesc_perm _, CheckpointStore.sortByTsDesc_sorted _⟩

/-! ## Lemmas about the loop controller -/

namespace Ralph

theorem maxNotReached {s : RalphState}
    (h : s.maxIterations = 0 ∨ s.totalIterations < s.maxIterations) :
    ¬(0 < s.maxIterations ∧ s.maxIterations ≤ s.totalIterations) := by
  rcases h with h | h <;> omega

theorem completionDetected_none {s : RalphState} {msgs : List AgentMessage}
    (h : s.completionPromise = none) : completionDetected s msgs = false := by
  rw [completionDetected, h]

theorem agentEnd_pending {s : RalphState} (msgs : List AgentMessage)
    (cw ut : Option Nat) (hact : s.active = true) (hpend : s.pendingHandoff = true) :
    agentEnd (some s) msgs cw ut =
      { finalState := some s, sentUserMessages := [], sentCustomTypes := []
        notices := [.handoffReady] } := by
  simp [agentEnd, hact, hpend]

theorem agentEnd_max {s : RalphState} (msgs : List AgentMessage) (cw ut : Option Nat)
    (hact : s.active = true) (hpend : s.pendingHandoff = false)
    (hmax : 0 < s.maxIterations ∧ s.maxIterations ≤ s.totalIterations) :
    agentEnd (some s) msgs cw ut =
      { finalState := none, sentUserMessages := [], sentCustomTypes := []
        notices := [.maxIterationsReached] } := by
  simp [agentEnd, hact, hpend, hmax.1, hmax.2]

theorem agentEnd_complete {s : RalphState} {msgs : List AgentMessage} (cw ut : Option Nat)
    (hact : s.active = true) (hpend : s.pendingHandoff = false)
    (hmax : ¬(0 < s.maxIterations ∧ s.maxIterations ≤ s.totalIterations))
    (hcomp : completionDetected s msgs = true) :
    agentEnd (some s) msgs cw ut =
      { finalState := none, sentUserMessages := [], sentCustomTypes := []
        notices := [.loopComplete] } := by
  simp [agentEnd, hact, hpend, hmax, hcomp]

theorem agentEnd_threshold_plan {s : RalphState} {msgs : List AgentMessage}
    {cw ut : Option Nat} {p : Nat} {pf : String}
    (hact : s.active = true) (hpend : s.pendingHandoff = false)
    (hmax : ¬(0 < s.maxIterations ∧ s.maxIterations ≤ s.totalIterations))
    (hcomp : completionDetected s msgs = false)
    (hp : getContextUsagePercent cw ut = some p) (hthr : s.contextThreshold ≤ p)
    (hpf : s.planFile = some pf) :
    agentEnd (some s) msgs cw ut =
      { finalState := some { s with pendingHandoff := true }
        sentUserMessages := [updateRequest pf]
        sentCustomTypes := ["ralph-context-warning"]
        notices := [] } := by
  simp [agentEnd, hact, hpend, hmax, hcomp, hp, hthr, hpf]

theorem agentEnd_threshold_noplan {s : RalphState} {msgs : List AgentMessage}
    {cw ut : Option Nat} {p : Nat}
    (hact : s.active = true) (hpend : s.pendingHandoff = false)
    (hmax : ¬(0 < s.maxIterations ∧ s.maxIterations ≤ s.totalIterations))
    (hcomp : completionDetected s msgs = false)
    (hp : getContextUsagePercent cw ut = some p) (hthr : s.contextThreshold ≤ p)
    (hpf : s.planFile = none) :
    agentEnd (some s) msgs cw ut = continueLoop s [.contextWarning p] := by
  simp [agentEnd, hact, hpend, hmax, hcomp, hp, hthr, hpf]

theorem agentEnd_below {s : RalphState} {msgs : List AgentMessage}
    {cw ut : Option Nat} {p : Nat}
    (hact : s.active = true) (hpend : s.pendingHandoff = false)
    (hmax : ¬(0 < s.maxIterations ∧ s.maxIterations ≤ s.totalIterations))
    (hcomp : completionDetected s msgs = false)
    (hp : getContextUsagePercent cw ut = some p) (hthr : ¬s.contextThreshold ≤ p) :
    agentEnd (some s) msgs cw ut = continueLoop s [] := by
  simp [agentEnd, hact, hpend, hmax, hcomp, hp, hthr]

theorem agentEnd_nopercent {s : RalphState} {msgs : List AgentMessage}
    {cw ut : Option Nat}
    (hact : s.active = true) (hpend : s.pendingHandoff = false)
    (hmax : ¬(0 < s.maxIterations ∧ s.maxIterations ≤ s.totalIterations))
    (hcomp : completionDetected s msgs = false)
    (hp : getContextUsagePercent cw ut = none) :
    agentEnd (some s) msgs cw ut = continueLoop s [] := by
  simp [agentEnd, hact, hpend, hmax, hcomp, hp]

theorem agentEnd_finalState_some_of_not_complete {s : RalphState}
    {msgs : List AgentMessage} {cw ut : Option Nat}
    (hact : s.active = true) (hpend : s.pendingHandoff = false)
    (hmax : ¬(0 < s.maxIterations ∧ s.maxIterations ≤ s.totalIterations))
    (hcomp : completionDetected s msgs = false) :
    ∃ s', (agentEnd (some s) msgs cw ut).finalState = some s' := by
  cases hp : getContextUsagePercent cw ut with
  | none => rw [agentEnd_nopercent hact hpend hmax hcomp hp]; exact ⟨_, rfl⟩
  | some p =>
    by_cases hthr : s.contextThreshold ≤ p
    · cases hpf : s.planFile with
      | none =>
        rw [agentEnd_threshold_noplan hact hpend hmax hcomp hp hthr hpf]
        exact ⟨_, rfl⟩
      | some pf =>
        rw [agentEnd_threshold_plan hact hpend hmax hcomp hp hthr hpf]
        exact ⟨_, rfl⟩
    · rw [agentEnd_below hact hpend hmax hcomp hp hthr]
      exact ⟨_, rfl⟩

theorem completionDetected_iff {s : RalphState} {msgs : List AgentMessage} {tag : String}
    (htag : s.completionPromise = some tag) :
    completionDetected s msgs = true ↔
      ∃ m, lastAssistant msgs = some m ∧
        extractPromiseText (extractTextContent m) = some tag := by
  rw [completionDetected, htag]
  cases hm : lastAssistant msgs with
  | none => simp
  | some m => simp [beq_iff_eq]

end Ralph

/-- The promise extraction on a text decomposed around its first promise
marker: when neither the part before `<promise>` nor the enclosed part
contains the character `<`, the extracted promise text is the enclosed part
with surrounding whitespace stripped. -/
theorem extractPromiseText_parts (pre mid suf : List Char)
    (hpre : ∀ c ∈ pre, c ≠ '<') (hmid : ∀ c ∈ mid, c ≠ '<') :
    Ralph.extractPromiseText
        (String.mk (pre ++ ("<promise>".data ++ (mid ++ ("</promise>".data ++ suf))))) =
      some (String.mk (trimChars mid)) := by
  have hdata :
      (String.mk (pre ++ ("<promise>".data ++ (mid ++ ("</promise>".data ++ suf))))).data =
        pre ++ ("<promise>".data ++ (mid ++ ("</promise>".data ++ suf))) := rfl
  have h1 :
      findSub "<promise>".data
          (pre ++ ("<promise>".data ++ (mid ++ ("</promise>".data ++ suf)))) =
        some pre.length := by
    rw [findSub_append_clean rfl pre _ hpre, findSub_append_self (by decide)]
    simp
  have h2 :
      (pre ++ ("<promise>".data ++ (mid ++ ("</promise>".data ++ suf)))).drop
          (pre.length + 9) =
        mid ++ ("</promise>".data ++ suf) := by
    rw [← List.append_assoc]
    have hlen : pre.length + 9 = (pre ++ "<promise>".data).length := by simp
    rw [hlen, List.drop_left]
  have h3 :
      findSub "</promise>".data (mid ++ ("</promise>".data ++ suf)) = some mid.length := by
    rw [findSub_append_clean rfl mid _ hmid, findSub_append_self (by decide)]
    simp
  have h4 : (mid ++ ("</promise>".data ++ suf)).take mid.length = mid :=
    List.take_left mid _
  unfold Ralph.extractPromiseText
  rw [hdata, h1]
  simp only [h2, h3, h4]

/-! ## Claims about the loop controller (C1, C2, C3, C4, C10) -/

/-- Claim C1: on any agent-turn-end event of an active loop with no pending
handoff, if max-iterations > 0 and the cumulative iteration count has
reached it, the loop state is cleared and the prompt is not resubmitted;
with `--max-iterations 3` and no completion tag the loop continues (prompt
resubmitted, counters incremented) while the cumulative count is below 3,
and the concrete run started at cumulative count 1 resubmits after
iterations 1 and 2 and stops exactly at cumulative iteration 3. -/
theorem C1_max_iterations_stop :
    (∀ (s : Ralph.RalphState) (msgs : List AgentMessage) (cw ut : Option Nat),
      s.active = true → s.pendingHandoff = false →
      0 < s.maxIterations → s.maxIterations ≤ s.totalIterations →
      (Ralph.agentEnd (some s) msgs cw ut).finalState = none ∧
      (Ralph.agentEnd (some s) msgs cw ut).sentUserMessages = []) ∧
    (∀ (s : Ralph.RalphState) (msgs : List AgentMessage) (cw ut : Option Nat),
      s.active = true → s.pendingHandoff = false →
      s.maxIterations = 3 → s.totalIterations < 3 → s.completionPromise = none →
      Ralph.getContextUsagePercent cw ut = none →
      (Ralph.agentEnd (some s) msgs cw ut).finalState =
        some { s with iteration := s.iteration + 1,
                      totalIterations := s.totalIterations + 1 } ∧
      (Ralph.agentEnd (some s) msgs cw ut).sentUserMessages = [s.prompt]) ∧
    ((Ralph.agentEnd (some (Ralph.startState "p" 3 none none 70 0)) [] none
        none).finalState =
      some { Ralph.startState "p" 3 none none 70 0 with
              iteration := 2, totalIterations := 2 } ∧
      (Ralph.agentEnd (some (Ralph.startState "p" 3 none none 70 0)) [] none
        none).sentUserMessages = ["p"] ∧
      (Ralph.agentEnd
        (some { Ralph.startState "p" 3 none none 70 0 with
                iteration := 2, totalIterations := 2 }) [] none none).finalState =
        some { Ralph.startState "p" 3 none none 70 0 with
                iteration := 3, totalIterations := 3 } ∧
      (Ralph.agentEnd
        (some { Ralph.startState "p" 3 none none 70 0 with
                iteration := 2, totalIterations := 2 }) [] none
        none).sentUserMessages = ["p"] ∧
      (Ralph.agentEnd
        (some { Ralph.startState "p" 3 none none 70 0 with
                iteration := 3, totalIterations := 3 }) [] none none).finalState = none ∧
      (Ralph.agentEnd
        (some { Ralph.startState "p" 3 none none 70 0 with
                iteration := 3, totalIterations := 3 }) [] none
        none).sentUserMessages = [] ∧
      (Ralph.agentEnd
        (some { Ralph.startState "p" 3 none none 70 0 with
                iteration := 3, totalIterations := 3 }) [] none none).notices =
        [Ralph.Notice.maxIterationsReached]) := by
  refine ⟨?_, ?_, by decide⟩
  · intro s msgs cw ut hact hpend hpos hle
    rw [Ralph.agentEnd_max msgs cw ut hact hpend ⟨hpos, hle⟩]
    exact ⟨rfl, rfl⟩
  · intro s msgs cw ut hact hpend hmax3 hlt hcp hp
    have hmax : ¬(0 < s.maxIterations ∧ s.maxIterations ≤ s.totalIterations) := by omega
    rw [Ralph.agentEnd_nopercent hact hpend hmax (Ralph.completionDetected_none hcp) hp]
    exact ⟨rfl, rfl⟩

/-- Witness for C1: at cumulative count 3 with max 3 the loop stops and
sends nothing; at cumulative count 2 it continues and resubmits "p". -/
theorem C1_witness :
    ((Ralph.agentEnd
        (some { Ralph.startState "p" 3 none none 70 0 with
                iteration := 3, totalIterations := 3 }) [] none none).finalState = none ∧
      (Ralph.agentEnd
        (some { Ralph.startState "p" 3 none none 70 0 with
                iteration := 3, totalIterations := 3 }) [] none
        none).sentUserMessages = []) ∧
    (Ralph.agentEnd
        (some { Ralph.startState "p" 3 none none 70 0 with
                iteration := 2, totalIterations := 2 }) [] none
        none).sentUserMessages = ["p"] :=
  ⟨C1_max_iterations_stop.1
      { Ralph.startState "p" 3 none none 70 0 with iteration := 3, totalIterations := 3 }
      [] none none rfl rfl (by decide) (by decide),
   (C1_max_iterations_stop.2.1
      { Ralph.startState "p" 3 none none 70 0 with iteration := 2, totalIterations := 2 }
      [] none none rfl rfl rfl (by decide) rfl rfl).2⟩

/-- Claim C2: for every agent-turn-end event of an active loop with a
configured completion tag (no pending handoff, max iterations not reached),
the loop terminates as successful exactly when the most recent assistant
message (reverse search) has a `<promise>TEXT</promise>` marker whose
extracted text equals the configured tag; concretely, with tag `DONE` an
assistant message containing `<promise>DONE</promise>` terminates the loop
while `<promise>Done</promise>` does not (the loop continues and resubmits
the prompt). -/
theorem C2_completion_tag :
    (∀ (s : Ralph.RalphState) (msgs : List AgentMessage) (cw ut : Option Nat)
      (tag : String),
      s.active = true → s.pendingHandoff = false →
      (s.maxIterations = 0 ∨ s.totalIterations < s.maxIterations) →
      s.completionPromise = some tag →
      (((Ralph.agentEnd (some s) msgs cw ut).finalState = none ∧
        (Ralph.agentEnd (some s) msgs cw ut).notices = [Ralph.Notice.loopComplete]) ↔
        ∃ m, Ralph.lastAssistant msgs = some m ∧
          Ralph.extractPromiseText (Ralph.extractTextContent m) = some tag)) ∧
    (Ralph.agentEnd (some (Ralph.startState "p" 0 (some "DONE") none 70 0))
        [AgentMessage.assistant [ContentBlock.text "work <promise>DONE</promise>"]]
        none none).finalState = none ∧
    (Ralph.agentEnd (some (Ralph.startState "p" 0 (some "DONE") none 70 0))
        [AgentMessage.assistant [ContentBlock.text "work <promise>DONE</promise>"]]
        none none).notices = [Ralph.Notice.loopComplete] ∧
    (Ralph.agentEnd (some (Ralph.startState "p" 0 (some "DONE") none 70 0))
        [AgentMessage.assistant [ContentBlock.text "work <promise>Done</promise>"]]
        none none).finalState =
      some { Ralph.startState "p" 0 (some "DONE") none 70 0 with
              iteration := 2, totalIterations := 2 } ∧
    (Ralph.agentEnd (some (Ralph.startState "p" 0 (some "DONE") none 70 0))
        [AgentMessage.assistant [ContentBlock.text "work <promise>Done</promise>"]]
        none none).sentUserMessages = ["p"] := by
  refine ⟨?_, by decide, by decide, by decide, by decide⟩
  intro s msgs cw ut tag hact hpend hmaxd htag
  have hmax := Ralph.maxNotReached hmaxd
  constructor
  · intro ⟨hfs, _⟩
    by_cases hc : Ralph.completionDetected s msgs = true
    · exact (Ralph.completionDetected_iff htag).mp hc
    · obtain ⟨s', hs'⟩ := Ralph.agentEnd_finalState_some_of_not_complete hact hpend hmax
        (Bool.eq_false_iff.mpr hc)
      rw [hfs] at hs'
      exact absurd hs' (by simp)
  · intro hex
    rw [Ralph.agentEnd_complete cw ut hact hpend hmax
      ((Ralph.completionDetected_iff htag).mpr hex)]
    exact ⟨rfl, rfl⟩

/-- Witness for C2: the general equivalence applied with tag `DONE` to a
turn whose last assistant message carries `<promise>DONE</promise>`. -/
theorem C2_witness :
    (Ralph.agentEnd (some (Ralph.startState "q" 0 (some "DONE") none 70 0))
        [AgentMessage.assistant [ContentBlock.text "<promise>DONE</promise>"]]
        none none).finalState = none :=
  ((C2_completion_tag.1 (Ralph.startState "q" 0 (some "DONE") none 70 0)
      [AgentMessage.assistant [ContentBlock.text "<promise>DONE</promise>"]]
      none none "DONE" rfl rfl (Or.inl rfl) rfl).mpr
    ⟨AgentMessage.assistant [ContentBlock.text "<promise>DONE</promise>"],
      by decide, by decide⟩).1

/-- Claim C3: on an agent-turn-end event of an active loop (no pending
handoff, max iterations not reached, no completion-tag match) whose context
usage is at or above the threshold: with a progress (plan) file configured,
the pending-handoff flag is set and the original prompt is not resubmitted
(only the plan-update request is sent); with no plan file configured, a
warning notice is emitted and the loop continues normally, incrementing both
counters and resubmitting the original prompt. -/
theorem C3_threshold_handoff :
    ∀ (s : Ralph.RalphState) (msgs : List AgentMessage) (cw ut : Option Nat) (p : Nat),
      s.active = true → s.pendingHandoff = false →
      (s.maxIterations = 0 ∨ s.totalIterations < s.maxIterations) →
      Ralph.completionDetected s msgs = false →
      Ralph.getContextUsagePercent cw ut = some p →
      s.contextThreshold ≤ p →
      (∀ pf, s.planFile = some pf →
        (Ralph.agentEnd (some s) msgs cw ut).finalState =
          some { s with pendingHandoff := true } ∧
        (Ralph.agentEnd (some s) msgs cw ut).sentUserMessages =
          [Ralph.updateRequest pf] ∧
        (s.prompt ≠ Ralph.updateRequest pf →
          s.prompt ∉ (Ralph.agentEnd (some s) msgs cw ut).sentUserMessages)) ∧
      (s.planFile = none →
        (Ralph.agentEnd (some s) msgs cw ut).notices = [Ralph.Notice.contextWarning p] ∧
        (Ralph.agentEnd (some s) msgs cw ut).finalState =
          some { s with iteration := s.iteration + 1,
                        totalIterations := s.totalIterations + 1 } ∧
        (Ralph.agentEnd (some s) msgs cw ut).sentUserMessages = [s.prompt]) := by
  intro s msgs cw ut p hact hpend hmaxd hcomp hp hthr
  have hmax := Ralph.maxNotReached hmaxd
  constructor
  · intro pf hpf
    rw [Ralph.agentEnd_threshold_plan hact hpend hmax hcomp hp hthr hpf]
    refine ⟨rfl, rfl, ?_⟩
    intro hne
    simpa using hne
  · intro hpf
    rw [Ralph.agentEnd_threshold_noplan hact hpend hmax hcomp hp hthr hpf]
    exact ⟨rfl, rfl, rfl⟩

/-- Witness for C3: with window 100 and 90 tokens used (usage 90% ≥ 70%),
the plan-file loop only requests the plan update and sets pending-handoff,
while the loop without a plan file warns and resubmits "p". -/
theorem C3_witness :
    (Ralph.agentEnd (some (Ralph.startState "p" 0 none (some "PLAN.md") 70 0)) []
        (some 100) (some 90)).finalState =
      some { Ralph.startState "p" 0 none (some "PLAN.md") 70 0 with
              pendingHandoff := true } ∧
    (Ralph.agentEnd (some (Ralph.startState "p" 0 none (some "PLAN.md") 70 0)) []
        (some 100) (some 90)).sentUserMessages = [Ralph.updateRequest "PLAN.md"] ∧
    (Ralph.agentEnd (some (Ralph.startState "p" 0 none none 70 0)) []
        (some 100) (some 90)).notices = [Ralph.Notice.contextWarning 90] ∧
    (Ralph.agentEnd (some (Ralph.startState "p" 0 none none 70 0)) []
        (some 100) (some 90)).sentUserMessages = ["p"] := by
  have hplan := (C3_threshold_handoff (Ralph.startState "p" 0 none (some "PLAN.md") 70 0)
    [] (some 100) (some 90) 90 rfl rfl (Or.inl rfl) rfl (by decide) (by decide)).1
    "PLAN.md" rfl
  have hnoplan := (C3_threshold_handoff (Ralph.startState "p" 0 none none 70 0)
    [] (some 100) (some 90) 90 rfl rfl (Or.inl rfl) rfl (by decide) (by decide)).2 rfl
  exact ⟨hplan.1, hplan.2.1, hnoplan.1, hnoplan.2.2⟩

/-- Claim C4: the context-usage percentage is `none` ("unknown") whenever
the model or the last assistant turn's usage figures are absent, and is
otherwise `round(tokens / window × 100)` — characterized exactly by
`2·w·p ≤ 2·(t·100) + w < 2·w·(p+1)`, i.e. `p − 1/2 ≤ t·100/w < p + 1/2`;
it is not clamped, so values over 100 occur (150 for 150000 tokens of a
100000-token window) and any such value is treated as at-or-above any
configured threshold (threshold is at most 95 after clamping); an unknown
percentage never triggers the threshold branch: the handler behaves exactly
like the plain continue branch. -/
theorem C4_context_usage_percent :
    (∀ t, Ralph.getContextUsagePercent none t = none) ∧
    (∀ w, Ralph.getContextUsagePercent (some w) none = none) ∧
    (∀ w t p, 0 < w → Ralph.getContextUsagePercent (some w) (some t) = some p →
      2 * w * p ≤ 2 * (t * 100) + w ∧ 2 * (t * 100) + w < 2 * w * (p + 1)) ∧
    Ralph.getContextUsagePercent (some 100000) (some 150000) = some 150 ∧
    (∀ (s : Ralph.RalphState) (msgs : List AgentMessage) (cw ut : Option Nat),
      s.active = true → s.pendingHandoff = false →
      ¬(0 < s.maxIterations ∧ s.maxIterations ≤ s.totalIterations) →
      Ralph.completionDetected s msgs = false →
      Ralph.getContextUsagePercent cw ut = none →
      Ralph.agentEnd (some s) msgs cw ut = Ralph.continueLoop s []) ∧
    (∀ (s : Ralph.RalphState) (msgs : List AgentMessage) (cw ut : Option Nat)
      (p : Nat) (pf : String),
      s.active = true → s.pendingHandoff = false →
      ¬(0 < s.maxIterations ∧ s.maxIterations ≤ s.totalIterations) →
      Ralph.completionDetected s msgs = false →
      Ralph.getContextUsagePercent cw ut = some p → 100 < p →
      s.contextThreshold ≤ 95 → s.planFile = some pf →
      (Ralph.agentEnd (some s) msgs cw ut).finalState =
        some { s with pendingHandoff := true }) := by
  refine ⟨fun _ => rfl, fun _ => rfl, ?_, rfl, ?_, ?_⟩
  · intro w t p hw hp
    have hval : (2 * (t * 100) + w) / (2 * w) = p := by
      simpa [Ralph.getContextUsagePercent] using hp
    have hdm := Nat.div_add_mod (2 * (t * 100) + w) (2 * w)
    rw [hval] at hdm
    have hml : (2 * (t * 100) + w) % (2 * w) < 2 * w :=
      Nat.mod_lt _ (by omega)
    constructor
    · exact Nat.le.intro hdm
    · have hexp : 2 * w * (p + 1) = 2 * w * p + 2 * w := by ring
      rw [hexp, ← hdm]
      exact Nat.add_lt_add_left hml _
  · intro s msgs cw ut hact hpend hmax hcomp hp
    exact Ralph.agentEnd_nopercent hact hpend hmax hcomp hp
  · intro s msgs cw ut p pf hact hpend hmax hcomp hp h100 hthr hpf
    rw [Ralph.agentEnd_threshold_plan hact hpend hmax hcomp hp (by omega) hpf]

/-- Witness for C4: the rounding bounds at window 3, 1 token (percentage
33); the unknown-percentage continue branch and the over-100 handoff branch
at concrete states. -/
theorem C4_witness :
    (2 * 3 * 33 ≤ 2 * (1 * 100) + 3 ∧ 2 * (1 * 100) + 3 < 2 * 3 * (33 + 1)) ∧
    Ralph.agentEnd (some (Ralph.startState "p" 0 none none 70 0)) [] none none =
      Ralph.continueLoop (Ralph.startState "p" 0 none none 70 0) [] ∧
    (Ralph.agentEnd (some (Ralph.startState "p" 0 none (some "PLAN.md") 70 0)) []
        (some 100) (some 150)).finalState =
      some { Ralph.startState "p" 0 none (some "PLAN.md") 70 0 with
              pendingHandoff := true } :=
  ⟨C4_context_usage_percent.2.2.1 3 1 33 (by decide) rfl,
   C4_context_usage_percent.2.2.2.2.1 (Ralph.startState "p" 0 none none 70 0) [] none none
      rfl rfl (by decide) rfl rfl,
   C4_context_usage_percent.2.2.2.2.2 (Ralph.startState "p" 0 none (some "PLAN.md") 70 0)
      [] (some 100) (some 150) 150 "PLAN.md" rfl rfl (by decide) rfl rfl (by decide)
      (by decide) rfl⟩

/-- Claim C10 (amended): completion-tag matching strips surrounding
whitespace inside the promise marker: when the most recent assistant text
decomposes as `pre <promise> W </promise> suf` with no `<` in `pre` or `W`
(so the marker shown is the first one the scan finds), and `W` equals the
configured tag after removing leading and trailing whitespace, the loop
terminates as successful — even though `W` need not be character-for-
character identical to the tag. -/
theorem C10_promise_whitespace :
    ∀ (s : Ralph.RalphState) (msgs : List AgentMessage) (cw ut : Option Nat)
      (tag : String) (m : AgentMessage) (pre mid suf : List Char),
      s.active = true → s.pendingHandoff = false →
      (s.maxIterations = 0 ∨ s.totalIterations < s.maxIterations) →
      s.completionPromise = some tag →
      Ralph.lastAssistant msgs = some m →
      Ralph.extractTextContent m =
        String.mk (pre ++ ("<promise>".data ++ (mid ++ ("</promise>".data ++ suf)))) →
      (∀ c ∈ pre, c ≠ '<') → (∀ c ∈ mid, c ≠ '<') →
      String.mk (trimChars mid) = tag →
      (Ralph.agentEnd (some s) msgs cw ut).finalState = none ∧
      (Ralph.agentEnd (some s) msgs cw ut).notices = [Ralph.Notice.loopComplete] := by
  intro s msgs cw ut tag m pre mid suf hact hpend hmaxd htag hlast htext hpre hmid htrim
  have hext : Ralph.extractPromiseText (Ralph.extractTextContent m) = some tag := by
    rw [htext, extractPromiseText_parts pre mid suf hpre hmid, htrim]
  have hcomp : Ralph.completionDetected s msgs = true := by
    rw [Ralph.completionDetected, htag, hlast]
    simp [hext]
  rw [Ralph.agentEnd_complete cw ut hact hpend (Ralph.maxNotReached hmaxd) hcomp]
  exact ⟨rfl, rfl⟩

/-- Witness for C10: the enclosed text `"  DONE  "` is not identical to the
tag `DONE`, yet the loop with tag `DONE` terminates on it. -/
theorem C10_witness :
    (Ralph.agentEnd (some (Ralph.startState "p" 0 (some "DONE") none 70 0))
        [AgentMessage.assistant [ContentBlock.text "ok <promise>  DONE  </promise> end"]]
        none none).finalState = none ∧
    String.mk "  DONE  ".data ≠ "DONE" :=
  ⟨(C10_promise_whitespace (Ralph.startState "p" 0 (some "DONE") none 70 0)
      [AgentMessage.assistant [ContentBlock.text "ok <promise>  DONE  </promise> end"]]
      none none "DONE"
      (AgentMessage.assistant [ContentBlock.text "ok <promise>  DONE  </promise> end"])
      "ok ".data "  DONE  ".data " end".data
      rfl rfl (Or.inl rfl) rfl (by decide) (by decide) (by decide) (by decide)
      (by decide)).1,
   by decide⟩

/-- Counterexample for C10 as stated: the claim quantifies over every
assistant text *containing* `<promise>W</promise>` with `trim(W) = tag`, but
the scan uses only the first promise marker of the text.  The text below
contains `<promise>DONE</promise>` (and `DONE` trims to the tag `DONE`), yet
the first marker encloses `WIP`, so the loop does not terminate: it
continues and resubmits the prompt. -/
theorem C10_counterexample :
    containsSub "<promise>DONE</promise>"
        "first <promise>WIP</promise> later <promise>DONE</promise>" = true ∧
    jsTrim "DONE" = "DONE" ∧
    Ralph.extractPromiseText
        "first <promise>WIP</promise> later <promise>DONE</promise>" = some "WIP" ∧
    (Ralph.agentEnd (some (Ralph.startState "p" 0 (some "DONE") none 70 0))
        [AgentMessage.assistant
          [ContentBlock.text
            "first <promise>WIP</promise> later <promise>DONE</promise>"]]
        none none).finalState ≠ none ∧
    (Ralph.agentEnd (some (Ralph.startState "p" 0 (some "DONE") none 70 0))
        [AgentMessage.assistant
          [ContentBlock.text
            "first <promise>WIP</promise> later <promise>DONE</promise>"]]
        none none).sentUserMessages = ["p"] := by
  refine ⟨by decide, by decide, by decide, ?_, by decide⟩
  decide
